import Mathlib

/-!
Verification model of the secretary.fit server core: the per-connection
WebSocket session orchestrator (`handleConnection` and its handlers in the
server's websocket module), the Groq fast-acknowledgment service
(`services/groq.ts`), and the Claude agent service (`services/claude.ts`).

Conventions of the embedding:
* Byte buffers are `List Nat`; `Buffer.concat` is `List.flatten`.
* Fallible gateway calls (`groqService.generateResponse`,
  `ttsService.synthesize`, `whisperService.transcribe`, the agent SDK
  stream) are modelled as `Except`-valued functions supplied in an `Env`
  record; the model verifies the orchestration logic around them.
* Each handler returns, besides the updated session, the emitted
  server-to-client events (the `ws.send` calls, in order) and a trace of
  the outbound gateway calls it performed (in order).
* Filesystem paths are plain strings; `path.join` is modelled with its
  segment normalization (resolving `..` and `.`), and `fs.realpath` /
  `fs.readFile` are finite maps carried by the environment.
-/

/-! ## String helpers (JS `toLowerCase` and `String.prototype.includes`) -/

/-- ASCII lowercasing, modelling JS `toLowerCase` on the ASCII strings the
server compares (`Char.toLower` lowers exactly the ASCII uppercase range). -/
def strLower (s : String) : String := ⟨s.data.map Char.toLower⟩

/-- JS `hay.includes(needle)`: `needle` occurs contiguously in `hay`. -/
def includesSub (needle : List Char) : List Char → Bool
  | [] => needle.isEmpty
  | c :: t => needle.isPrefixOf (c :: t) || includesSub needle t

/-! ## The agent-trigger classifier (`needsAgent` in the websocket handler) -/

/-- The fixed keyword vocabulary from `needsAgent`. -/
def agentKeywords : List String :=
  ["create", "make", "write", "generate",
   "file", "folder", "directory",
   "read", "open", "show", "display",
   "edit", "modify", "update", "change",
   "add", "append", "insert", "put",
   "delete", "remove", "rm",
   "run", "execute", "bash", "command",
   "search", "find", "grep", "look for",
   "list", "ls", "show files",
   "install", "npm", "pip",
   "git", "commit", "push", "pull",
   ".txt", ".js", ".py", ".json", ".md"]

/-- `needsAgent(userMessage)`: some keyword is a substring of the lowercased
message. -/
def needsAgent (userMessage : String) : Bool :=
  agentKeywords.any fun keyword => includesSub keyword.data (strLower userMessage).data

/-! ## Path model (`path.join`, descendant test, server filesystem) -/

/-- Split a character list at every occurrence of `sep` (the splitter
underlying `String.split` on a one-character separator). -/
def splitChar (sep : Char) : List Char → List (List Char)
  | [] => [[]]
  | c :: t =>
    match splitChar sep t with
    | [] => [[]]
    | g :: gs => if c = sep then [] :: g :: gs else (c :: g) :: gs

/-- The `/`-separated components of a path string. -/
def splitOnSlash (s : String) : List String := (splitChar '/' s.data).map (fun g => ⟨g⟩)

/-- Join components back with `/` separators. -/
def joinSegs : List String → String
  | [] => ""
  | [x] => x
  | x :: xs => x ++ "/" ++ joinSegs xs

/-- One step of Node `path.join` normalization: skip empty and `.` segments,
let `..` pop the previous segment (of an absolute path, `..` at the root is
dropped). -/
def pushSeg (stack : List String) (seg : String) : List String :=
  if seg = "" ∨ seg = "." then stack
  else if seg = ".." then stack.dropLast
  else stack ++ [seg]

/-- Node `path.join(a, b)` for absolute `a`: concatenate and normalize. -/
def pathJoin (a b : String) : String :=
  "/" ++ joinSegs ((splitOnSlash a ++ splitOnSlash b).foldl pushSeg [])

/-- JS `s.startsWith(p)`: the containment test `handleFetchFile` performs
on the canonical path. -/
def startsWithStr (s p : String) : Bool := p.data.isPrefixOf s.data

/-- Nonempty segments of an absolute path. -/
def segsOf (p : String) : List String := (splitOnSlash p).filter (fun s => s ≠ "")

/-- `p` lies inside directory `dir`: segment-wise, `dir` is a prefix of `p`.
This is the spec's notion of "descendant of the workspace root" (unlike the
raw string-prefix test the code performs). -/
def isDescOf (p dir : String) : Bool := (segsOf dir).isPrefixOf (segsOf p)

/-- Server-visible filesystem: the graph of `fs.realpath` (canonical path of
each existing path, following symlinks) and of `fs.readFile` (successful
reads), as finite maps. -/
structure SrvFS where
  canon : List (String × String)
  contents : List (String × String)

def SrvFS.realpath (fs : SrvFS) (p : String) : Option String :=
  (fs.canon.find? (fun e => e.1 == p)).map (·.2)

def SrvFS.readFile (fs : SrvFS) (p : String) : Option String :=
  (fs.contents.find? (fun e => e.1 == p)).map (·.2)

/-! ## Messages, events, calls, sessions -/

/-- Bytes of one binary frame. -/
abbrev Frame := List Nat

/-- Per-connection session record stored in `userSessions`. -/
structure Session where
  userId : String
  sessionId : Option String
  audioChunks : List Frame
deriving DecidableEq

/-- Parsed client-to-server control message (the `type` switch of the
message handler); option fields model JS truthiness checks on them. -/
inductive ClientMessage where
  | identify (userId : Option String)
  | fetchFile (content : Option String)
  | message (content : Option String)
  | audioStart
  | audioEnd
  | ping
  | unknownType
deriving DecidableEq

/-- One inbound transport frame: JSON-decodable control message, or a
binary (non-JSON-decodable) frame. -/
inductive Incoming where
  | ctrl (m : ClientMessage)
  | binary (d : Frame)
deriving DecidableEq

/-- Server-to-client event, one per `ws.send`. -/
inductive Event where
  | systemInit (content : String)
  | groqResponse (content : String)
  | ttsAudio (data : Frame)
  | transcription (content : String) (isFinal : Bool)
  | fileContent (fileName : String) (content : Option String) (error : Option String)
  | agentEvent (ty : String) (content : String) (dataSessionId : Option String)
  | errorEv (content : String)
  | pong
deriving DecidableEq

/-- Outbound gateway call, one per external service invocation. -/
inductive Call where
  | groqCall (userMessage : String)
  | ttsCall (text : String)
  | whisperCall (audio : Frame)
  | agentCall (prompt : String) (resume : Option String)
deriving DecidableEq

def isAgentEv : Event → Bool
  | .agentEvent _ _ _ => true
  | _ => false

def isWhisperCall : Call → Bool
  | .whisperCall _ => true
  | _ => false

def isTtsCall : Call → Bool
  | .ttsCall _ => true
  | _ => false

def isAgentCall : Call → Bool
  | .agentCall _ _ => true
  | _ => false

/-! ## Groq fast-acknowledgment service (`services/groq.ts`) -/

inductive Role where
  | system
  | user
  | assistant
deriving DecidableEq

/-- One entry of `GroqService.conversationHistory`. -/
structure ChatMsg where
  role : Role
  content : String
deriving DecidableEq

/-- The fixed system instruction installed by the `GroqService` constructor
(abbreviated to its first sentence; its exact text plays no role in any
claim, only its identity as the one `system`-role entry). -/
def groqSystemPrompt : String :=
  "You are a helpful voice assistant. Keep responses brief (1-3 sentences) for voice output."

def groqSystemMsg : ChatMsg := ⟨.system, groqSystemPrompt⟩

/-- `conversationHistory` right after the constructor ran. -/
def initHistory : List ChatMsg := [groqSystemMsg]

/-- The last `n` elements of a list (JS `slice(-n)` for `n ≥ 1`). -/
def lastN (n : Nat) (xs : List ChatMsg) : List ChatMsg := xs.drop (xs.length - n)

/-- `GroqService.generateResponse`, state-passing: from the current
`conversationHistory` and the user message, the `messages` array sent to the
chat-completions call is the history with the user turn pushed, trimmed to
`[history[0]] ++ slice(-10)` whenever its length exceeds 11. -/
def groqSent (hist : List ChatMsg) (userMessage : String) : List ChatMsg :=
  let h1 := hist ++ [⟨.user, userMessage⟩]
  if h1.length > 11 then h1.take 1 ++ lastN 10 h1 else h1

/-- The `conversationHistory` left behind by `generateResponse` once the
gateway returned `reply`: the sent history plus the assistant turn. -/
def groqNext (hist : List ChatMsg) (userMessage reply : String) : List ChatMsg :=
  groqSent hist userMessage ++ [⟨.assistant, reply⟩]

/-- Iterate whole `generateResponse` turns (user message, gateway reply). -/
def runTurns (hist : List ChatMsg) : List (String × String) → List ChatMsg
  | [] => hist
  | (m, r) :: ts => runTurns (groqNext hist m r) ts

/-- The untrimmed insertion sequence of non-system turns: for each call,
the user message then the assistant reply, in order. -/
def flowTail : List (String × String) → List ChatMsg
  | [] => []
  | (m, r) :: ts => ⟨.user, m⟩ :: ⟨.assistant, r⟩ :: flowTail ts

/-! ## Claude agent service (`services/claude.ts`) -/

/-- One content block of an SDK assistant message. -/
inductive ContentBlock where
  | text (s : String)
  | otherBlock
deriving DecidableEq

def blockText : ContentBlock → Option String
  | .text s => some s
  | .otherBlock => none

/-- SDK message yielded by the agent `query` stream, projected to the
fields `processMessage` reads. Every concrete SDK variant carries a
`session_id`; `other` covers the `default` branch. -/
inductive SDKMessage where
  | assistant (blocks : List ContentBlock) (sid uuid : String)
  | result (isSuccess : Bool) (res : String) (sid : String)
  | system (isInit : Bool) (sid : String)
  | other (sid : Option String)
deriving DecidableEq

/-- Simplified event forwarded over the WebSocket; `dataSessionId` is the
`data.session_id` field of the JS object (absent on the error yield). -/
structure AgentMsg where
  type : String
  content : String
  dataSessionId : Option String
deriving DecidableEq

/-- `ClaudeAgentService.processMessage`. -/
def processMessage : SDKMessage → AgentMsg
  | .assistant blocks sid _ =>
    ⟨"assistant", String.intercalate "\n" (blocks.filterMap blockText), some sid⟩
  | .result isSuccess res sid =>
    ⟨"result", if isSuccess then res else "Task completed", some sid⟩
  | .system isInit sid =>
    if isInit then ⟨"system_init", "Agent initialized", some sid⟩
    else ⟨"system", "System event", some sid⟩
  | .other sid => ⟨"unknown", "", sid⟩

/-- Outcome of iterating the SDK `query` stream: all yielded messages, and
whether iteration ended normally or threw after them. -/
inductive SDKRun where
  | normal (msgs : List SDKMessage)
  | failure (msgs : List SDKMessage) (err : String)
deriving DecidableEq

/-- `getUserWorkspace` validation: user IDs containing `..`, `/` or `\`
are rejected with a throw. -/
def invalidUserId (u : String) : Bool :=
  includesSub "..".data u.data || includesSub "/".data u.data || includesSub "\\".data u.data

/-- The messages `executeAgent` yields for a given SDK run: each SDK
message through `processMessage`; a stream failure is caught and adds one
final `error` yield. -/
def agentMsgs : SDKRun → List AgentMsg
  | .normal ms => ms.map processMessage
  | .failure ms e => ms.map processMessage ++ [⟨"error", e, none⟩]

/-- `ClaudeAgentService.executeAgent`: throws (before any yield) on an
invalid user ID, otherwise yields `agentMsgs` of the SDK run. -/
def executeAgent (sdk : String → Option String → SDKRun) (userId prompt : String)
    (resume : Option String) : Except String (List AgentMsg) :=
  if invalidUserId userId then .error "Invalid user ID"
  else .ok (agentMsgs (sdk prompt resume))

/-! ## The connection environment: external gateways and filesystem -/

/-- External collaborators as seen by one connection's handlers. `groq`
abstracts `groqService.generateResponse` (its conversation-history state is
modelled separately above, and shown there to be connection-independent). -/
structure Env where
  groq : String → Except String String
  tts : String → Except String Frame
  whisper : Frame → Except String String
  sdk : String → Option String → SDKRun
  cwd : String
  fs : SrvFS

/-! ## The WebSocket handlers -/

/-- `handleFetchFile`: join the filename under the per-user workspace,
canonicalize with `fs.realpath`; a failed `realpath` or a canonical path
that does not start (as a string) with the workspace path yields the
`Invalid file path` payload; then `fs.readFile` on the joined path, a read
failure yielding the `File not found` payload. -/
def handleFetchFile (cwd : String) (fs : SrvFS) (userId fileName : String) : Event :=
  let workspaceRoot := pathJoin cwd "workspace"
  let userWorkspace := pathJoin workspaceRoot ("user-" ++ userId)
  let filePath := pathJoin userWorkspace fileName
  match fs.realpath filePath with
  | none => .fileContent fileName none (some "Invalid file path")
  | some realFilePath =>
    if startsWithStr realFilePath userWorkspace then
      match fs.readFile filePath with
      | some content => .fileContent fileName (some content) none
      | none => .fileContent fileName none (some "File not found")
    else .fileContent fileName none (some "Invalid file path")

/-- One TTS attempt: the `tts_audio` event on success, nothing on failure
(the error is caught and logged); the gateway call is recorded either way. -/
def ttsStep (env : Env) (text : String) : List Event × List Call :=
  match env.tts text with
  | .ok audio => ([.ttsAudio audio], [.ttsCall text])
  | .error _ => ([], [.ttsCall text])

/-- The `if (agentMsg.data?.session_id)` store: a nonempty yielded
`session_id` overwrites the session's stored `sessionId`. -/
def sidUpdate (s : Session) (sidOpt : Option String) : Session :=
  match sidOpt with
  | some sid => if sid ≠ "" then { s with sessionId := some sid } else s
  | none => s

/-- The `for await` body over the agent stream in `handleUserMessage`:
forward each message as an `agent_`-prefixed event, synthesize speech for
nonempty assistant messages, and store any yielded `session_id`. -/
def agentLoop (env : Env) : Session → List AgentMsg → Session × List Event × List Call
  | s, [] => (s, [], [])
  | s, m :: ms =>
    let tts := if m.type = "assistant" ∧ m.content ≠ "" then ttsStep env m.content else ([], [])
    let rest := agentLoop env (sidUpdate s m.dataSessionId) ms
    (rest.1,
      .agentEvent ("agent_" ++ m.type) m.content m.dataSessionId :: (tts.1 ++ rest.2.1),
      tts.2 ++ rest.2.2)

/-- `handleUserMessage`: Groq fast acknowledgment (a failure is caught and
reported as one `error` event, ending the turn), TTS of the reply
(non-fatal), then — only when `needsAgent` — the streamed agent run, whose
own throw before the first yield is caught by the same `catch`. -/
def handleUserMessage (env : Env) (s : Session) (content : String) :
    Session × List Event × List Call :=
  match env.groq content with
  | .error _ => (s, [.errorEv "Failed to generate response"], [.groqCall content])
  | .ok reply =>
    let tts := ttsStep env reply
    if needsAgent content then
      match executeAgent env.sdk s.userId content s.sessionId with
      | .error _ =>
        (s, .groqResponse reply :: tts.1 ++ [.errorEv "Failed to generate response"],
          .groqCall content :: tts.2 ++ [.agentCall content s.sessionId])
      | .ok ms =>
        let rest := agentLoop env s ms
        (rest.1, .groqResponse reply :: tts.1 ++ rest.2.1,
          .groqCall content :: tts.2 ++ [.agentCall content s.sessionId] ++ rest.2.2)
    else (s, .groqResponse reply :: tts.1, .groqCall content :: tts.2)

/-- `handleBinaryMessage`: unconditionally append the frame to the
session's `audioChunks` (no recording gate exists). -/
def handleBinaryMessage (s : Session) (data : Frame) : Session :=
  { s with audioChunks := s.audioChunks ++ [data] }

/-- `handleAudioStart`: clear any previous audio chunks. -/
def handleAudioStart (s : Session) : Session := { s with audioChunks := [] }

/-- `handleAudioEnd`: concatenate the chunks, transcribe, emit the
transcription, clear the buffer, then feed a nonempty transcription into
`handleUserMessage`; a transcription throw is caught, reported as an
`error` event, and the buffer is cleared in the catch as well. -/
def handleAudioEnd (env : Env) (s : Session) : Session × List Event × List Call :=
  let audioBuffer := s.audioChunks.flatten
  match env.whisper audioBuffer with
  | .error _ =>
    ({ s with audioChunks := [] }, [.errorEv "Failed to transcribe audio"],
      [.whisperCall audioBuffer])
  | .ok t =>
    let s1 : Session := { s with audioChunks := [] }
    if t ≠ "" then
      let rest := handleUserMessage env s1 t
      (rest.1, .transcription t true :: rest.2.1, .whisperCall audioBuffer :: rest.2.2)
    else (s1, [.transcription t true], [.whisperCall audioBuffer])

/-- The `type` switch of the message handler, for JSON-decodable frames.
The `if (message.userId)` / `if (message.content)` truthiness guards skip
absent and empty-string fields. -/
def handleClientMessage (env : Env) (s : Session) : ClientMessage →
    Session × List Event × List Call
  | .identify u =>
    match u with
    | some uid => if uid ≠ "" then ({ s with userId := uid }, [], []) else (s, [], [])
    | none => (s, [], [])
  | .fetchFile c =>
    match c with
    | some fn =>
      if fn ≠ "" then (s, [handleFetchFile env.cwd env.fs s.userId fn], []) else (s, [], [])
    | none => (s, [], [])
  | .message c =>
    match c with
    | some content => if content ≠ "" then handleUserMessage env s content else (s, [], [])
    | none => (s, [], [])
  | .audioStart => (handleAudioStart s, [], [])
  | .audioEnd => handleAudioEnd env s
  | .ping => (s, [.pong], [])
  | .unknownType => (s, [], [])

/-- The dispatcher of `handleConnection`: a JSON-decodable frame goes
through the `type` switch, anything else is one binary audio frame. -/
def handleIncoming (env : Env) (s : Session) : Incoming →
    Session × List Event × List Call
  | .ctrl m => handleClientMessage env s m
  | .binary d => (handleBinaryMessage s d, [], [])

/-! ## Derived notions used in the statements -/

/-- The client-facing event forwarded for one agent stream message. -/
def agentMsgEvent (m : AgentMsg) : Event :=
  .agentEvent ("agent_" ++ m.type) m.content m.dataSessionId

/-- A terminal agent stream message: the SDK `result` or the caught-error
yield. -/
def isTerminalMsg (m : AgentMsg) : Bool := m.type = "result" || m.type = "error"

/-- A terminal client-facing agent event. -/
def isTerminalEv : Event → Bool
  | .agentEvent ty _ _ => ty = "agent_result" || ty = "agent_error"
  | _ => false

/-- Resume-token overwrite semantics of one yielded `session_id` field. -/
def sidStep (acc : Option String) (o : Option String) : Option String :=
  match o with
  | some sid => if sid ≠ "" then some sid else acc
  | none => acc

/-- The resume token stored after consuming a stream: the last nonempty
`session_id` carried by any yielded message, or the initial token. -/
def lastSid (ms : List AgentMsg) (init : Option String) : Option String :=
  ms.foldl (fun acc m => sidStep acc m.dataSessionId) init

def isResultMsg : SDKMessage → Bool
  | .result _ _ _ => true
  | _ => false

/-- Modelled from the spec: the Agent Event invariant of the external SDK
collaborator (the `@anthropic-ai/claude-agent-sdk` `query` stream is not
part of this repository) — "exactly one terminal `result` (or error) ends
each invocation; all events preceding it are non-terminal". A normal run
ends in exactly one `result`; a run that throws has yielded no `result`. -/
def sdkWF : SDKRun → Prop
  | .normal ms => ∃ pre r, ms = pre ++ [r] ∧ isResultMsg r = true ∧
      ∀ x ∈ pre, isResultMsg x = false
  | .failure ms _ => ∀ x ∈ ms, isResultMsg x = false

/-! ## Concrete fixtures for witnesses and counterexamples -/

/-- Filesystem for the traversal scenario: the workspace of user `ab`
holds `secret.txt` (an existing regular file, canonical path itself); no
file of user `a` exists. -/
def fsEscape : SrvFS :=
  ⟨[("/srv/workspace/user-ab/secret.txt", "/srv/workspace/user-ab/secret.txt")],
   [("/srv/workspace/user-ab/secret.txt", "top secret")]⟩

/-- Filesystem holding one unreadable entry (e.g. a directory) inside the
workspace of user `u2`: `realpath` succeeds, `readFile` fails. -/
def fsDirOnly : SrvFS :=
  ⟨[("/srv/workspace/user-u2/dir1", "/srv/workspace/user-u2/dir1")], []⟩

/-- Environment in which every gateway call fails and the filesystem is
empty. -/
def errEnv : Env :=
  ⟨fun _ => .error "gateway down", fun _ => .error "gateway down",
   fun _ => .error "gateway down", fun _ _ => .normal [], "/srv", ⟨[], []⟩⟩

/-- A well-formed two-message SDK run: one assistant yield, one result. -/
def okSdkMsgs : List SDKMessage :=
  [.assistant [.text "Working on it"] "sess-1" "uuid-1", .result true "done" "sess-2"]

/-- Environment in which Groq succeeds, TTS fails (non-fatally), and the
SDK produces `okSdkMsgs`. -/
def okEnv : Env :=
  ⟨fun _ => .ok "On it", fun _ => .error "tts down", fun _ => .ok "create a file",
   fun _ _ => .normal okSdkMsgs, "/srv", ⟨[], []⟩⟩

/-! ## Helper lemmas -/

theorem includesSub_iff_infix (needle : List Char) :
    ∀ hay : List Char, includesSub needle hay = true ↔ needle <:+: hay := by
  intro hay
  induction hay with
  | nil => simp [includesSub, List.isEmpty_iff, List.infix_nil]
  | cons c t ih =>
    simp only [includesSub, Bool.or_eq_true, List.isPrefixOf_iff_prefix, ih,
      List.infix_cons_iff]

theorem ttsStep_calls (env : Env) (t : String) : (ttsStep env t).2 = [Call.ttsCall t] := by
  cases h : env.tts t <;> simp [ttsStep, h]

theorem sidUpdate_userId (s : Session) (o : Option String) :
    (sidUpdate s o).userId = s.userId := by
  cases o with
  | none => rfl
  | some sid => by_cases h : sid = "" <;> simp [sidUpdate, h]

theorem sidUpdate_audio (s : Session) (o : Option String) :
    (sidUpdate s o).audioChunks = s.audioChunks := by
  cases o with
  | none => rfl
  | some sid => by_cases h : sid = "" <;> simp [sidUpdate, h]

theorem agentLoop_state (env : Env) : ∀ (ms : List AgentMsg) (s : Session),
    (agentLoop env s ms).1.userId = s.userId ∧
    (agentLoop env s ms).1.audioChunks = s.audioChunks ∧
    (agentLoop env s ms).2.2.filter isWhisperCall = [] := by
  intro ms
  induction ms with
  | nil => intro s; simp [agentLoop]
  | cons m ms ih =>
    intro s
    obtain ⟨h1, h2, h3⟩ := ih (sidUpdate s m.dataSessionId)
    by_cases hc : m.type = "assistant" ∧ m.content ≠ "" <;>
      simp [agentLoop, hc, h1, h2, h3, sidUpdate_userId, sidUpdate_audio,
        List.filter_append, ttsStep_calls, isWhisperCall]

theorem handleUserMessage_state (env : Env) (s : Session) (content : String) :
    (handleUserMessage env s content).1.userId = s.userId ∧
    (handleUserMessage env s content).1.audioChunks = s.audioChunks ∧
    (handleUserMessage env s content).2.2.filter isWhisperCall = [] := by
  cases hg : env.groq content with
  | error e => simp [handleUserMessage, hg, isWhisperCall]
  | ok reply =>
    by_cases hn : needsAgent content
    · cases ha : executeAgent env.sdk s.userId content s.sessionId with
      | error e =>
        simp [handleUserMessage, hg, hn, ha, List.filter_append, ttsStep_calls, isWhisperCall]
      | ok ms =>
        obtain ⟨h1, h2, h3⟩ := agentLoop_state env ms s
        simp [handleUserMessage, hg, hn, ha, h1, h2, h3, List.filter_append,
          ttsStep_calls, isWhisperCall]
    · simp [handleUserMessage, hg, hn, ttsStep_calls, isWhisperCall]

theorem foldl_handleBinaryMessage : ∀ (frames : List Frame) (s : Session),
    (frames.foldl handleBinaryMessage s).audioChunks = s.audioChunks ++ frames := by
  intro frames
  induction frames with
  | nil => intro s; simp
  | cons f fs ih => intro s; simp [List.foldl_cons, ih, handleBinaryMessage]

theorem sidUpdate_sessionId (s : Session) (o : Option String) :
    (sidUpdate s o).sessionId = sidStep s.sessionId o := by
  cases o with
  | none => rfl
  | some sid => by_cases h : sid = "" <;> simp [sidUpdate, sidStep, h]

theorem agentLoop_events (env : Env) : ∀ (ms : List AgentMsg) (s : Session),
    (agentLoop env s ms).2.1.filter isAgentEv = ms.map agentMsgEvent ∧
    (agentLoop env s ms).1.sessionId = lastSid ms s.sessionId := by
  intro ms
  induction ms with
  | nil => intro s; simp [agentLoop, lastSid]
  | cons m ms ih =>
    intro s
    obtain ⟨h1, h2⟩ := ih (sidUpdate s m.dataSessionId)
    constructor
    · by_cases hc : m.type = "assistant" ∧ m.content ≠ ""
      · cases htts : env.tts m.content <;>
          simp [agentLoop, hc, ttsStep, htts, h1, isAgentEv, agentMsgEvent]
      · simp [agentLoop, hc, h1, isAgentEv, agentMsgEvent]
    · simp only [agentLoop, h2, lastSid, List.foldl_cons, sidUpdate_sessionId]

theorem handleAudioEnd_spec (env : Env) (s : Session) :
    (handleAudioEnd env s).1.userId = s.userId ∧
    (handleAudioEnd env s).1.audioChunks = [] ∧
    (handleAudioEnd env s).2.2.filter isWhisperCall
      = [Call.whisperCall s.audioChunks.flatten] := by
  cases hw : env.whisper s.audioChunks.flatten with
  | error e => simp [handleAudioEnd, hw, isWhisperCall]
  | ok t =>
    by_cases ht : t = ""
    · simp [handleAudioEnd, hw, ht, isWhisperCall]
    · obtain ⟨h1, h2, h3⟩ := handleUserMessage_state env { s with audioChunks := [] } t
      simp [handleAudioEnd, hw, ht, isWhisperCall, h1, h2, h3]

theorem processMessage_terminal (x : SDKMessage) (h : isResultMsg x = true) :
    isTerminalMsg (processMessage x) = true := by
  cases x with
  | result a b c => cases a <;> simp [processMessage, isTerminalMsg]
  | assistant blocks sid uuid => simp [isResultMsg] at h
  | system i sid => simp [isResultMsg] at h
  | other sid => simp [isResultMsg] at h

theorem processMessage_not_terminal (x : SDKMessage) (h : isResultMsg x = false) :
    isTerminalMsg (processMessage x) = false := by
  cases x with
  | result a b c => simp [isResultMsg] at h
  | assistant blocks sid uuid => simp [processMessage, isTerminalMsg]
  | system i sid => cases i <;> simp [processMessage, isTerminalMsg]
  | other sid => simp [processMessage, isTerminalMsg]

theorem append_eq_iff_str (p a b : String) : (p ++ a = p ++ b) ↔ a = b := by
  constructor
  · intro h
    have hd : p.data ++ a.data = p.data ++ b.data := by
      have hq := congrArg String.data h
      simpa [String.data_append] using hq
    have hl := List.append_cancel_left hd
    cases a; cases b; exact congrArg String.mk hl
  · intro h; rw [h]

theorem isTerminalEv_agentMsgEvent (m : AgentMsg) :
    isTerminalEv (agentMsgEvent m) = isTerminalMsg m := by
  have e1 : ("agent_" ++ m.type = "agent_result") ↔ m.type = "result" := by
    have : ("agent_result" : String) = "agent_" ++ "result" := rfl
    rw [this]; exact append_eq_iff_str "agent_" m.type "result"
  have e2 : ("agent_" ++ m.type = "agent_error") ↔ m.type = "error" := by
    have : ("agent_error" : String) = "agent_" ++ "error" := rfl
    rw [this]; exact append_eq_iff_str "agent_" m.type "error"
  simp [agentMsgEvent, isTerminalEv, isTerminalMsg, e1, e2]

/-! ## Lemmas about the Groq conversation history -/

theorem groqSent_small (hist : List ChatMsg) (m : String) (h : hist.length ≤ 10) :
    groqSent hist m = hist ++ [⟨.user, m⟩] := by
  have hlen : (hist ++ [(⟨Role.user, m⟩ : ChatMsg)]).length = hist.length + 1 := by simp
  have hc : ¬ ((hist ++ [(⟨Role.user, m⟩ : ChatMsg)]).length > 11) := by rw [hlen]; omega
  simp only [groqSent, if_neg hc]

theorem lastN_of_le (xs : List ChatMsg) (n : Nat) (h : xs.length ≤ n) : lastN n xs = xs := by
  simp [lastN, Nat.sub_eq_zero_of_le h]

theorem length_lastN (n : Nat) (xs : List ChatMsg) :
    (lastN n xs).length = xs.length - (xs.length - n) := by
  simp [lastN]

theorem lastN_append (n : Nat) (xs ys : List ChatMsg) (h : ys.length ≤ n) :
    lastN n (xs ++ ys) = lastN (n - ys.length) xs ++ ys := by
  simp only [lastN, List.length_append]
  rcases Nat.le_total (xs.length + ys.length) n with hle | hge
  · rw [Nat.sub_eq_zero_of_le hle, Nat.sub_eq_zero_of_le (by omega), List.drop_zero,
      List.drop_zero]
  · have hk : xs.length + ys.length - n ≤ xs.length := by omega
    rw [List.drop_append_of_le_length hk]
    have hi : xs.length + ys.length - n = xs.length - (n - ys.length) := by omega
    rw [hi]

theorem lastN_cons (c : ChatMsg) (xs : List ChatMsg) (n : Nat) (h : n ≤ xs.length) :
    lastN n (c :: xs) = lastN n xs := by
  simp only [lastN, List.length_cons]
  have he : xs.length + 1 - n = (xs.length - n) + 1 := by omega
  rw [he, List.drop_succ_cons]

theorem lastN_lastN (n k : Nat) (xs : List ChatMsg) (h : n ≤ k) :
    lastN n (lastN k xs) = lastN n xs := by
  simp only [lastN, List.length_drop, List.drop_drop]
  congr 1
  omega

theorem groqSent_inv (F : List ChatMsg) (m : String) :
    groqSent (groqSystemMsg :: lastN 11 F) m
      = groqSystemMsg :: lastN 10 (F ++ [⟨.user, m⟩]) := by
  by_cases hF : F.length ≤ 9
  · rw [lastN_of_le F 11 (by omega)]
    rw [groqSent_small _ m (by simp; omega)]
    rw [lastN_of_le _ 10 (by simp; omega)]
    simp
  · have hXl : (lastN 11 F).length = F.length - (F.length - 11) := length_lastN 11 F
    have hcond : ((groqSystemMsg :: lastN 11 F) ++ [(⟨Role.user, m⟩ : ChatMsg)]).length > 11 := by
      simp [hXl]; omega
    simp only [groqSent, if_pos hcond]
    rw [List.cons_append]
    rw [show List.take 1 (groqSystemMsg :: (lastN 11 F ++ [(⟨Role.user, m⟩ : ChatMsg)]))
        = [groqSystemMsg] by simp]
    rw [lastN_cons _ _ 10 (by simp [hXl]; omega)]
    rw [lastN_append 10 _ _ (by simp)]
    norm_num
    rw [lastN_lastN 9 11 F (by omega)]
    rw [lastN_append 10 F [⟨.user, m⟩] (by simp)]
    norm_num

theorem runTurns_inv : ∀ (ts : List (String × String)) (F : List ChatMsg),
    runTurns (groqSystemMsg :: lastN 11 F) ts
      = groqSystemMsg :: lastN 11 (F ++ flowTail ts) := by
  intro ts
  induction ts with
  | nil => intro F; simp [runTurns, flowTail]
  | cons p ts ih =>
    intro F
    obtain ⟨m, r⟩ := p
    have hnext : groqNext (groqSystemMsg :: lastN 11 F) m r
        = groqSystemMsg :: lastN 11 (F ++ [⟨.user, m⟩, ⟨.assistant, r⟩]) := by
      rw [groqNext, groqSent_inv, List.cons_append]
      congr 1
      rw [show F ++ [(⟨Role.user, m⟩ : ChatMsg), ⟨Role.assistant, r⟩]
          = (F ++ [⟨Role.user, m⟩]) ++ [⟨Role.assistant, r⟩] by simp]
      rw [lastN_append 11 _ [⟨.assistant, r⟩] (by simp)]
      norm_num
    rw [runTurns, hnext, ih]
    rw [show flowTail ((m, r) :: ts) = ⟨.user, m⟩ :: ⟨.assistant, r⟩ :: flowTail ts from rfl]
    congr 1
    simp

theorem flowTail_roles : ∀ (ts : List (String × String)) (e : ChatMsg),
    e ∈ flowTail ts → e.role ≠ Role.system := by
  intro ts
  induction ts with
  | nil => intro e he; simp [flowTail] at he
  | cons p ts ih =>
    intro e he
    obtain ⟨m, r⟩ := p
    rw [show flowTail ((m, r) :: ts) = ⟨.user, m⟩ :: ⟨.assistant, r⟩ :: flowTail ts from rfl]
      at he
    simp only [List.mem_cons] at he
    rcases he with rfl | rfl | he3
    · simp
    · simp
    · exact ih e he3

/-! ## Claim theorems -/

/-- C1 (failing input for the claim): with user id `a` and filename
`../user-ab/secret.txt`, the joined path canonicalizes to
`/srv/workspace/user-ab/secret.txt`, which is not a descendant of the
user's workspace root `/srv/workspace/user-a` — yet `handleFetchFile`
returns the file's bytes rather than the `Invalid file path` payload,
because its containment check is the raw string-prefix test
`realFilePath.startsWith(userWorkspace)` with no trailing separator, which
the sibling directory `user-ab` passes. -/
theorem c1_fetch_file_escape :
    handleFetchFile "/srv" fsEscape "a" "../user-ab/secret.txt"
        = Event.fileContent "../user-ab/secret.txt" (some "top secret") none ∧
    fsEscape.realpath
        (pathJoin (pathJoin (pathJoin "/srv" "workspace") ("user-" ++ "a"))
          "../user-ab/secret.txt")
        = some "/srv/workspace/user-ab/secret.txt" ∧
    isDescOf "/srv/workspace/user-ab/secret.txt"
        (pathJoin (pathJoin "/srv" "workspace") ("user-" ++ "a")) = false := by
  decide

/-- C2: for a recording session on one connection — `audio_start`, any
finite sequence of binary frames, `audio_end` — the transcription gateway
is called exactly once, with exactly the concatenation of the frames in
arrival order, and the session's audio buffer is empty after
`handleAudioEnd` finishes, whether the transcription succeeds or throws
(the environment's `whisper` is arbitrary). -/
theorem c2_recording_round_trip (env : Env) (s0 : Session) (frames : List Frame) :
    (handleAudioEnd env (frames.foldl handleBinaryMessage (handleAudioStart s0))).2.2.filter
        isWhisperCall = [Call.whisperCall frames.flatten] ∧
    (handleAudioEnd env (frames.foldl handleBinaryMessage (handleAudioStart s0))).1.audioChunks
      = [] := by
  have hch : (frames.foldl handleBinaryMessage (handleAudioStart s0)).audioChunks = frames := by
    rw [foldl_handleBinaryMessage]; simp [handleAudioStart]
  obtain ⟨-, h2, h3⟩ :=
    handleAudioEnd_spec env (frames.foldl handleBinaryMessage (handleAudioStart s0))
  rw [hch] at h3
  exact ⟨h3, h2⟩

/-- C3: if the fast-acknowledgment (Groq) call throws for a turn, the
handler emits exactly one recoverable `error` event to the client and
performs zero speech-synthesis calls and zero agent invocations in that
turn. -/
theorem c3_fast_ack_failure_aborts_turn (env : Env) (s : Session) (content e : String)
    (h : env.groq content = .error e) :
    (handleUserMessage env s content).2.1 = [Event.errorEv "Failed to generate response"] ∧
    (handleUserMessage env s content).2.2.filter isTtsCall = [] ∧
    (handleUserMessage env s content).2.2.filter isAgentCall = [] := by
  refine ⟨?_, ?_, ?_⟩ <;> simp [handleUserMessage, h, isTtsCall, isAgentCall]

theorem c3_witness :
    (handleUserMessage errEnv ⟨"u1", none, []⟩ "hello").2.1
        = [Event.errorEv "Failed to generate response"] ∧
    (handleUserMessage errEnv ⟨"u1", none, []⟩ "hello").2.2.filter isTtsCall = [] ∧
    (handleUserMessage errEnv ⟨"u1", none, []⟩ "hello").2.2.filter isAgentCall = [] :=
  c3_fast_ack_failure_aborts_turn errEnv ⟨"u1", none, []⟩ "hello" "gateway down" rfl

/-- C5: `needsAgent` is a pure function of the utterance that returns true
exactly when some keyword of its fixed vocabulary occurs as a substring of
the lowercased utterance; it is therefore case-insensitive (utterances
with equal lowercasing classify identically), and on the spec's examples:
`needsAgent "Create a file" = needsAgent "create a file"`,
`needsAgent "hello" = false`, `needsAgent "delete test.txt" = true`. -/
theorem c5_needsAgent_pure_case_insensitive :
    (∀ s t : String, strLower s = strLower t → needsAgent s = needsAgent t) ∧
    (∀ s : String, needsAgent s = true ↔
      ∃ k ∈ agentKeywords, k.data <:+: (strLower s).data) ∧
    needsAgent "Create a file" = needsAgent "create a file" ∧
    needsAgent "hello" = false ∧
    needsAgent "delete test.txt" = true := by
  refine ⟨?_, ?_, by decide, by decide, by decide⟩
  · intro s t h
    simp only [needsAgent, h]
  · intro s
    simp only [needsAgent, List.any_eq_true, includesSub_iff_infix]

theorem c5_witness :
    needsAgent "DELETE Test.TXT" = needsAgent "delete test.txt" :=
  c5_needsAgent_pure_case_insensitive.1 "DELETE Test.TXT" "delete test.txt" (by decide)

/-- C7 (counterexample): the stored `userId` is not immutable once set — a
subsequently handled `identify` message carrying a different user id
overwrites it (`session.userId = message.userId` runs on every identify). -/
theorem c7_identify_overwrites :
    (handleIncoming errEnv ⟨"u1", none, []⟩ (.ctrl (.identify (some "u2")))).1.userId = "u2" ∧
    ("u2" : String) ≠ "u1" := by
  decide

/-- C7 (amended): the stored `userId` after handling any message equals
the incoming id exactly for an `identify` message carrying a nonempty
`userId` field, and is unchanged by every other message. -/
theorem c7_userid_update_rule (env : Env) (s : Session) (m : Incoming) :
    (handleIncoming env s m).1.userId =
      (match m with
       | .ctrl (.identify (some uid)) => if uid ≠ "" then uid else s.userId
       | _ => s.userId) := by
  match m with
  | .binary d => simp [handleIncoming, handleBinaryMessage]
  | .ctrl (.identify none) => simp [handleIncoming, handleClientMessage]
  | .ctrl (.identify (some uid)) =>
    by_cases h : uid = "" <;> simp [handleIncoming, handleClientMessage, h]
  | .ctrl (.fetchFile c) =>
    cases c with
    | none => simp [handleIncoming, handleClientMessage]
    | some fn => by_cases h : fn = "" <;> simp [handleIncoming, handleClientMessage, h]
  | .ctrl (.message c) =>
    cases c with
    | none => simp [handleIncoming, handleClientMessage]
    | some content =>
      by_cases h : content = ""
      · simp [handleIncoming, handleClientMessage, h]
      · have hu := (handleUserMessage_state env s content).1
        simp [handleIncoming, handleClientMessage, h, hu]
  | .ctrl .audioStart => simp [handleIncoming, handleClientMessage, handleAudioStart]
  | .ctrl .audioEnd =>
    have hu := (handleAudioEnd_spec env s).1
    simp [handleIncoming, handleClientMessage, hu]
  | .ctrl .ping => simp [handleIncoming, handleClientMessage]
  | .ctrl .unknownType => simp [handleIncoming, handleClientMessage]

/-- C9 (counterexample): a `fetch_file` for a file that does not exist
makes `fs.realpath` fail, which lands in the `Invalid file path` branch —
not the distinct `File not found` payload the claim requires. -/
theorem c9_missing_file_gets_invalid_path :
    handleFetchFile "/srv" ⟨[], []⟩ "u1" "notes.txt"
        = Event.fileContent "notes.txt" none (some "Invalid file path") ∧
    (Event.fileContent "notes.txt" none (some "Invalid file path"))
        ≠ Event.fileContent "notes.txt" none (some "File not found") := by
  decide

/-- C9 (amended): the handler's three payloads — a failed `realpath`
(including every nonexistent file) yields `Invalid file path`; the
`File not found` payload is produced exactly when canonicalization
succeeds, the prefix check passes, and the subsequent read fails; a
successful read yields the content payload. No raw error ever escapes. -/
theorem c9_fetch_error_payload_rule (cwd : String) (fs : SrvFS) (userId fileName : String) :
    (fs.realpath (pathJoin (pathJoin (pathJoin cwd "workspace") ("user-" ++ userId)) fileName)
        = none →
      handleFetchFile cwd fs userId fileName
        = Event.fileContent fileName none (some "Invalid file path")) ∧
    (∀ rp,
      fs.realpath (pathJoin (pathJoin (pathJoin cwd "workspace") ("user-" ++ userId)) fileName)
        = some rp →
      startsWithStr rp (pathJoin (pathJoin cwd "workspace") ("user-" ++ userId)) = false →
      handleFetchFile cwd fs userId fileName
        = Event.fileContent fileName none (some "Invalid file path")) ∧
    (∀ rp,
      fs.realpath (pathJoin (pathJoin (pathJoin cwd "workspace") ("user-" ++ userId)) fileName)
        = some rp →
      startsWithStr rp (pathJoin (pathJoin cwd "workspace") ("user-" ++ userId)) = true →
      fs.readFile (pathJoin (pathJoin (pathJoin cwd "workspace") ("user-" ++ userId)) fileName)
        = none →
      handleFetchFile cwd fs userId fileName
        = Event.fileContent fileName none (some "File not found")) ∧
    (∀ rp c,
      fs.realpath (pathJoin (pathJoin (pathJoin cwd "workspace") ("user-" ++ userId)) fileName)
        = some rp →
      startsWithStr rp (pathJoin (pathJoin cwd "workspace") ("user-" ++ userId)) = true →
      fs.readFile (pathJoin (pathJoin (pathJoin cwd "workspace") ("user-" ++ userId)) fileName)
        = some c →
      handleFetchFile cwd fs userId fileName = Event.fileContent fileName (some c) none) := by
  refine ⟨?_, ?_, ?_, ?_⟩
  · intro h; simp [handleFetchFile, h]
  · intro rp h1 h2; simp [handleFetchFile, h1, h2]
  · intro rp h1 h2 h3; simp [handleFetchFile, h1, h2, h3]
  · intro rp c h1 h2 h3; simp [handleFetchFile, h1, h2, h3]

theorem c9_witness :
    handleFetchFile "/srv" fsDirOnly "u2" "dir1"
        = Event.fileContent "dir1" none (some "File not found") :=
  (c9_fetch_error_payload_rule "/srv" fsDirOnly "u2" "dir1").2.2.1
    "/srv/workspace/user-u2/dir1" (by decide) (by decide) (by decide)

/-- C10: the audio accumulator has no idle/recording gate: a binary frame
is appended to the session's buffer whatever state the session is in; in
particular frames arriving after an `audio_end` stay buffered and are the
input of the next transcription if no `audio_start` intervenes, and the
`audio_start` clear is the only discard. -/
theorem c10_ungated_audio_append (env : Env) (s : Session) (d : Frame) (frames : List Frame) :
    (handleIncoming env s (.binary d)).1.audioChunks = s.audioChunks ++ [d] ∧
    (handleIncoming env (frames.foldl handleBinaryMessage (handleAudioEnd env s).1)
        (.ctrl .audioEnd)).2.2.filter isWhisperCall = [Call.whisperCall frames.flatten] ∧
    (handleIncoming env s (.ctrl .audioStart)).1.audioChunks = [] := by
  refine ⟨by simp [handleIncoming, handleBinaryMessage], ?_,
    by simp [handleIncoming, handleClientMessage, handleAudioStart]⟩
  have h1 : (handleAudioEnd env s).1.audioChunks = [] := (handleAudioEnd_spec env s).2.1
  have h2 : (frames.foldl handleBinaryMessage (handleAudioEnd env s).1).audioChunks = frames := by
    rw [foldl_handleBinaryMessage, h1]; simp
  have h3 :=
    (handleAudioEnd_spec env (frames.foldl handleBinaryMessage (handleAudioEnd env s).1)).2.2
  rw [h2] at h3
  simpa [handleIncoming, handleClientMessage] using h3

/-- C4: for a turn where the agent path runs (Groq succeeded, classifier
positive, valid user id) and the SDK stream satisfies the collaborator's
terminal-event contract, the client-facing `agent_*` events are exactly
the yielded messages in the same order, exactly one terminal
`agent_result`/`agent_error` event ends that sequence, and the session's
stored resume token ends up as the last nonempty `session_id` carried by
any yielded message (each one overwrites the previous value). -/
theorem c4_agent_stream_order (env : Env) (s : Session) (content reply : String)
    (hg : env.groq content = .ok reply)
    (hn : needsAgent content = true)
    (hv : invalidUserId s.userId = false)
    (hwf : sdkWF (env.sdk content s.sessionId)) :
    (handleUserMessage env s content).2.1.filter isAgentEv
      = (agentMsgs (env.sdk content s.sessionId)).map agentMsgEvent ∧
    (∃ pre last, (handleUserMessage env s content).2.1.filter isAgentEv = pre ++ [last] ∧
      isTerminalEv last = true ∧ ∀ x ∈ pre, isTerminalEv x = false) ∧
    (handleUserMessage env s content).1.sessionId
      = lastSid (agentMsgs (env.sdk content s.sessionId)) s.sessionId := by
  have hexec : executeAgent env.sdk s.userId content s.sessionId
      = .ok (agentMsgs (env.sdk content s.sessionId)) := by
    simp [executeAgent, hv]
  obtain ⟨hev, hsid⟩ := agentLoop_events env (agentMsgs (env.sdk content s.sessionId)) s
  have hfilter : (handleUserMessage env s content).2.1.filter isAgentEv
      = (agentMsgs (env.sdk content s.sessionId)).map agentMsgEvent := by
    cases htts : env.tts reply <;>
      simp [handleUserMessage, hg, hn, hexec, ttsStep, htts, List.filter_append, hev, isAgentEv]
  have hterm : ∃ pre last, agentMsgs (env.sdk content s.sessionId) = pre ++ [last] ∧
      isTerminalMsg last = true ∧ ∀ x ∈ pre, isTerminalMsg x = false := by
    cases hrun : env.sdk content s.sessionId with
    | normal ms =>
      rw [hrun] at hwf
      obtain ⟨pre, r, hms, hr, hpre⟩ := hwf
      refine ⟨pre.map processMessage, processMessage r, by simp [agentMsgs, hms],
        processMessage_terminal r hr, ?_⟩
      intro x hx
      simp only [List.mem_map] at hx
      obtain ⟨y, hy, rfl⟩ := hx
      exact processMessage_not_terminal y (hpre y hy)
    | failure ms e =>
      rw [hrun] at hwf
      refine ⟨ms.map processMessage, ⟨"error", e, none⟩, by simp [agentMsgs],
        by simp [isTerminalMsg], ?_⟩
      intro x hx
      simp only [List.mem_map] at hx
      obtain ⟨y, hy, rfl⟩ := hx
      exact processMessage_not_terminal y (hwf y hy)
  refine ⟨hfilter, ?_, ?_⟩
  · obtain ⟨pre, last, hms, hlast, hpre⟩ := hterm
    refine ⟨pre.map agentMsgEvent, agentMsgEvent last, ?_, ?_, ?_⟩
    · rw [hfilter, hms]; simp
    · rw [isTerminalEv_agentMsgEvent]; exact hlast
    · intro x hx
      simp only [List.mem_map] at hx
      obtain ⟨y, hy, rfl⟩ := hx
      rw [isTerminalEv_agentMsgEvent]
      exact hpre y hy
  · cases htts : env.tts reply <;>
      simp [handleUserMessage, hg, hn, hexec, ttsStep, htts, hsid]

theorem c4_witness :
    ((handleUserMessage okEnv ⟨"u1", none, []⟩ "create a file").2.1.filter isAgentEv
      = (agentMsgs (okEnv.sdk "create a file"
          (Session.mk "u1" none []).sessionId)).map agentMsgEvent) ∧
    (∃ pre last,
      (handleUserMessage okEnv ⟨"u1", none, []⟩ "create a file").2.1.filter isAgentEv
        = pre ++ [last] ∧ isTerminalEv last = true ∧ ∀ x ∈ pre, isTerminalEv x = false) ∧
    (handleUserMessage okEnv ⟨"u1", none, []⟩ "create a file").1.sessionId
      = lastSid (agentMsgs (okEnv.sdk "create a file" (Session.mk "u1" none []).sessionId))
          (Session.mk "u1" none []).sessionId :=
  c4_agent_stream_order okEnv ⟨"u1", none, []⟩ "create a file" "On it" rfl (by decide)
    (by decide)
    ⟨[SDKMessage.assistant [ContentBlock.text "Working on it"] "sess-1" "uuid-1"],
      SDKMessage.result true "done" "sess-2", rfl, rfl, by decide⟩

/-- C6 (counterexample): the fast-acknowledgment conversation history is
one process-wide mutable buffer shared by all connections — an interleaved
turn on connection A changes the history input of connection B's next
call, so the claim's two runs do not produce the same history input. -/
theorem c6_shared_history_between_connections :
    groqSent (groqNext initHistory "hi there" "sure") "what time is it"
      ≠ groqSent initHistory "what time is it" := by
  decide

/-- C6 (amended): connections do share mutable state beyond the workspace
filesystem: the Groq service is a module-level singleton, so a turn
handled on one connection appends to the same conversation history that
the next turn on any other connection sends (whenever the history is short
enough that trimming does not collapse the difference, the two history
inputs differ outright). -/
theorem c6_history_cross_connection (g : List ChatMsg) (mA rA mB : String)
    (h : g.length ≤ 7) :
    groqSent (groqNext g mA rA) mB ≠ groqSent g mB := by
  have h1 : groqSent g mB = g ++ [⟨.user, mB⟩] := groqSent_small g mB (by omega)
  have h2 : groqNext g mA rA = g ++ [⟨.user, mA⟩, ⟨.assistant, rA⟩] := by
    rw [groqNext, groqSent_small g mA (by omega)]; simp
  have h3 : groqSent (groqNext g mA rA) mB
      = g ++ [⟨.user, mA⟩, ⟨.assistant, rA⟩, ⟨.user, mB⟩] := by
    rw [h2, groqSent_small _ mB (by simp; omega)]; simp
  rw [h1, h3]
  intro heq
  have hlen := congrArg List.length heq
  simp at hlen

theorem c6_witness :
    groqSent (groqNext initHistory "open notes.txt" "on it") "thanks"
      ≠ groqSent initHistory "thanks" :=
  c6_history_cross_connection initHistory "open notes.txt" "on it" "thanks" (by decide)

/-- C8: after any sequence of `generateResponse` turns, the history sent
to the gateway is the fixed system instruction followed by exactly the
most recent at-most-10 non-system turns in insertion order: it equals
`system :: lastN 10` of the untrimmed insertion sequence, that tail is a
suffix of the insertion sequence (so the evicted turns are the oldest),
has length at most 10, and contains no system-role entry. -/
theorem c8_history_bound (ts : List (String × String)) (m : String) :
    groqSent (runTurns initHistory ts) m
      = groqSystemMsg :: lastN 10 (flowTail ts ++ [⟨.user, m⟩]) ∧
    (lastN 10 (flowTail ts ++ [⟨.user, m⟩])).length ≤ 10 ∧
    lastN 10 (flowTail ts ++ [⟨.user, m⟩]) <:+ flowTail ts ++ [⟨.user, m⟩] ∧
    ∀ e ∈ lastN 10 (flowTail ts ++ [⟨.user, m⟩]), e.role ≠ Role.system := by
  have hinit : initHistory = groqSystemMsg :: lastN 11 ([] : List ChatMsg) := by
    simp [initHistory, lastN]
  refine ⟨?_, ?_, ?_, ?_⟩
  · rw [hinit, runTurns_inv]
    simpa using groqSent_inv (flowTail ts) m
  · rw [length_lastN]; omega
  · exact List.drop_suffix _ _
  · intro e he
    have hmem : e ∈ flowTail ts ++ [(⟨Role.user, m⟩ : ChatMsg)] :=
      List.mem_of_mem_drop he
    rcases List.mem_append.mp hmem with hm | hm
    · exact flowTail_roles ts e hm
    · simp only [List.mem_singleton] at hm
      subst hm
      simp

theorem c8_witness :
    groqSent (runTurns initHistory [("one", "two")]) "three"
      = groqSystemMsg :: lastN 10 (flowTail [("one", "two")] ++ [⟨Role.user, "three"⟩]) :=
  (c8_history_bound [("one", "two")] "three").1
